import Mathlib

/-!
Shallow embedding of the client-side data-synchronization layer of the
levhatora application: the react-query hooks module (query-key builders,
per-mutation invalidation calls, the pledge query-string builder), together
with a model of the cache coordinator described by the design document for
the parts that live in the external query library rather than in this
repository's source.
-/

/-- A dynamic parameter value as it occurs in a JavaScript parameter bag:
a number, a string, `null`, or `undefined`. Numbers are carried, never
computed with, so they are embedded as integers. -/
inductive PValue where
  | num (n : Int)
  | str (s : String)
  | null
  | undef
deriving DecidableEq

/-- A JavaScript object used as a parameter bag (such as a
`PledgeQueryParams` value): an insertion-ordered list of field-name/value
pairs, in `Object.entries` order. -/
abbrev ParamBag := List (String × PValue)

/-- One element of a react-query key array: a string literal, a number, or
a parameter-bag object. -/
inductive KeyElem where
  | str (s : String)
  | num (n : Int)
  | bag (b : ParamBag)
deriving DecidableEq

/-- A react-query query key: an array of elements. -/
abbrev Key := List KeyElem

/-- From the source, `pledgeKeys.all = ["pledges"]`. -/
def pledgeKeys.all : Key := [.str "pledges"]

/-- From the source, `pledgeKeys.lists() = [...pledgeKeys.all, "list"]`. -/
def pledgeKeys.lists : Key := pledgeKeys.all ++ [.str "list"]

/-- From the source, `pledgeKeys.list(params) = [...pledgeKeys.lists(), params]`. -/
def pledgeKeys.list (params : ParamBag) : Key := pledgeKeys.lists ++ [.bag params]

/-- From the source, `pledgeKeys.details() = [...pledgeKeys.all, "detail"]`. -/
def pledgeKeys.details : Key := pledgeKeys.all ++ [.str "detail"]

/-- From the source, `pledgeKeys.detail(id) = [...pledgeKeys.details(), id]`. -/
def pledgeKeys.detail (id : Int) : Key := pledgeKeys.details ++ [.num id]

/-- From the source, `paymentKeys.all = ["payments"]`. -/
def paymentKeys.all : Key := [.str "payments"]

/-- From the source, `paymentKeys.lists() = [...paymentKeys.all, "list"]`. -/
def paymentKeys.lists : Key := paymentKeys.all ++ [.str "list"]

/-- From the source, `paymentKeys.byPledge(pledgeId) = [...paymentKeys.lists(), "pledge", pledgeId]`. -/
def paymentKeys.byPledge (pledgeId : Int) : Key :=
  paymentKeys.lists ++ [.str "pledge", .num pledgeId]

/-- From the source, `paymentKeys.byContact(contactId) = [...paymentKeys.lists(), "contact", contactId]`. -/
def paymentKeys.byContact (contactId : Int) : Key :=
  paymentKeys.lists ++ [.str "contact", .num contactId]

/-- Modelled from the spec (§4.1): a filter bag matches a cached bag when
every field of the filter is present in the cached bag with the same value;
the cached bag may carry further fields. -/
def bagMatches (f q : ParamBag) : Bool :=
  f.all (fun kv => q.lookup kv.1 == some kv.2)

/-- Modelled from the spec (§4.1): matching of a single invalidation-filter
element against a cached-key element. -/
def elemMatches : KeyElem → KeyElem → Bool
  | .str s, .str t => s == t
  | .num a, .num b => a == b
  | .bag f, .bag q => bagMatches f q
  | _, _ => false

/-- Modelled from the spec (§4.1 isPrefixOf): a filter key matches a cached
key when the cached key extends it elementwise. -/
def keyMatches : Key → Key → Bool
  | [], _ => true
  | _ :: _, [] => false
  | f :: fs, q :: qs => elemMatches f q && keyMatches fs qs

/-- A cached key is marked stale by a list of issued invalidation filters
exactly when some filter matches it. -/
def invalidatedBy (filters : List Key) (k : Key) : Bool :=
  filters.any (fun f => keyMatches f k)

/-- The `CreatePaymentData` interface from the source. Note that it has no
`contactId` field. -/
structure CreatePaymentData where
  pledgeId : Int
  amount : Int
  currency : String
  amountUsd : Option Int
  paymentDate : String
  receivedDate : Option String
  paymentMethod : Option String
  paymentStatus : Option String
  referenceNumber : Option String
  checkNumber : Option String
  receiptNumber : Option String
  receiptIssued : Option Bool
  notes : Option String
  paymentPlanId : Option Int
deriving DecidableEq

/-- The `CreatePledgeData` interface from the source. -/
structure CreatePledgeData where
  contactId : Int
  categoryId : Option Int
  pledgeDate : String
  description : String
  originalAmount : Int
  currency : String
  originalAmountUsd : Int
  notes : Option String
deriving DecidableEq

/-- The `CreatePledgeAndPayData` interface from the source: `CreatePledgeData`
extended with `shouldRedirectToPay`. -/
structure CreatePledgeAndPayData extends CreatePledgeData where
  shouldRedirectToPay : Bool
deriving DecidableEq

/-- The invalidation filters issued by `useCreatePledgeMutation.onSuccess`,
in call order: `pledgeKeys.all`, `pledgeKeys.list({contactId})`, and — only
when `variables.categoryId` is truthy in the JavaScript sense, so neither
absent nor `0` — `pledgeKeys.list({categoryId})`. -/
def createPledgeInvalidations (v : CreatePledgeData) : List Key :=
  [pledgeKeys.all, pledgeKeys.list [("contactId", .num v.contactId)]]
    ++ (match v.categoryId with
        | some g => if g == 0 then [] else [pledgeKeys.list [("categoryId", .num g)]]
        | none => [])

/-- The invalidation filters issued by `useCreatePledgeAndPayMutation.onSuccess`,
which repeats the `useCreatePledgeMutation` calls verbatim. -/
def createPledgeAndPayInvalidations (v : CreatePledgeAndPayData) : List Key :=
  [pledgeKeys.all, pledgeKeys.list [("contactId", .num v.contactId)]]
    ++ (match v.categoryId with
        | some g => if g == 0 then [] else [pledgeKeys.list [("categoryId", .num g)]]
        | none => [])

/-- The invalidation filters issued by `useCreatePaymentMutation.onSuccess`,
in call order: `paymentKeys.all`, `paymentKeys.byPledge(pledgeId)`,
`pledgeKeys.all`, `pledgeKeys.detail(pledgeId)`. -/
def createPaymentInvalidations (v : CreatePaymentData) : List Key :=
  [paymentKeys.all, paymentKeys.byPledge v.pledgeId,
   pledgeKeys.all, pledgeKeys.detail v.pledgeId]

/-- Outcome of an asynchronous call against the external transport: success
with a value or failure with an error. The module's fetchers signal failure
by throwing; the query library delivers that throw to its consumers as a
tagged error value, which this embedding represents directly. -/
inductive Outcome (ε α : Type) where
  | ok (a : α)
  | fail (e : ε)
deriving DecidableEq

/-- The `Pledge` interface from the source (string-typed decimal amounts are
carried verbatim, never computed with). -/
structure Pledge where
  id : Int
  contactId : Int
  categoryId : Option Int
  pledgeDate : String
  description : String
  originalAmount : String
  currency : String
  originalAmountUsd : Option String
  totalPaid : String
  totalPaidUsd : Option String
  balance : String
  balanceUsd : Option String
  isActive : Bool
  notes : Option String
  createdAt : String
  updatedAt : String
  progressPercentage : Int
  categoryName : Option String
  categoryDescription : Option String
deriving DecidableEq

/-- The `CreatePledgeResponse` interface from the source. -/
structure CreatePledgeResponse where
  message : String
  pledge : Pledge
deriving DecidableEq

/-- The payment record nested in `CreatePaymentResponse` in the source. -/
structure PaymentRecord where
  id : Int
  pledgeId : Int
  amount : String
  currency : String
  amountUsd : Option String
  paymentDate : String
  receivedDate : Option String
  paymentMethod : Option String
  paymentStatus : Option String
  referenceNumber : Option String
  checkNumber : Option String
  receiptNumber : Option String
  receiptIssued : Option Bool
  notes : Option String
  paymentPlanId : Option Int
  createdAt : String
  updatedAt : String
deriving DecidableEq

/-- The `CreatePaymentResponse` interface from the source. -/
structure CreatePaymentResponse where
  message : String
  payment : PaymentRecord
deriving DecidableEq

/-- Settlement of a mutation as this module configures it: the query library
runs `onSuccess` on a successful outcome — issuing that mutation's
invalidation filters — and `onError` on a failure; the `onError` handlers in
the source only log to the console, so no invalidation filter is issued on
failure, and the outcome reaches the mutation's caller unchanged. -/
def mutationEffect {ε α : Type} (inv : List Key) :
    Outcome ε α → List Key × Outcome ε α
  | .ok a => (inv, .ok a)
  | .fail e => ([], .fail e)

/-- The `value !== undefined && value !== null && value !== ""` filter that
`fetchPledges` applies to each `Object.entries` pair before appending it to
the `URLSearchParams`. -/
def keepsParam : PValue → Bool
  | .undef => false
  | .null => false
  | .str s => s != ""
  | .num _ => true

/-- JavaScript `value.toString()` for parameter values. -/
def pvalueToString : PValue → String
  | .num n => toString n
  | .str s => s
  | .null => "null"
  | .undef => "undefined"

/-- The query-string pairs `fetchPledges` appends to its `URLSearchParams`,
in `Object.entries` order: each surviving field as `key = value.toString()`. -/
def fetchPledgesQuery (params : ParamBag) : List (String × String) :=
  (params.filter (fun kv => keepsParam kv.2)).map
    (fun kv => (kv.1, pvalueToString kv.2))

/-- Result type of `useCreatePledgeAndPayMutation`'s mutation function: the
`createPledge` response spread together with the `shouldRedirectToPay` flag. -/
structure CreatePledgeAndPayResult where
  message : String
  pledge : Pledge
  shouldRedirectToPay : Bool
deriving DecidableEq

/-- The mutation function of `useCreatePledgeAndPayMutation`: it splits off
`shouldRedirectToPay`, posts the remaining fields through `createPledge`
(abstracted here as `api`, the external transport), and extends the response
with the unchanged flag. -/
def createPledgeAndPayFn {ε : Type}
    (api : CreatePledgeData → Outcome ε CreatePledgeResponse)
    (d : CreatePledgeAndPayData) : Outcome ε CreatePledgeAndPayResult :=
  match api d.toCreatePledgeData with
  | .ok r => .ok ⟨r.message, r.pledge, d.shouldRedirectToPay⟩
  | .fail e => .fail e

/-- The `staleTime: 1000 * 60 * 5` option from `usePledgesQuery`. -/
def pledgesStaleTime : Nat := 1000 * 60 * 5

/-- The `gcTime: 1000 * 60 * 30` option from `usePledgesQuery`. -/
def pledgesGcTime : Nat := 1000 * 60 * 30

/-- The query key `usePledgesQuery` registers for a parameter bag. -/
def usePledgesQueryKey (params : ParamBag) : Key := pledgeKeys.list params

/-- Modelled from the spec (§3): the status of a cache entry. The cache
store and fetch coordinator live in the external query library, not in this
repository's source, so they are modelled from the design document. -/
inductive EntryStatus where
  | pending
  | success
  | error
deriving DecidableEq

/-- Modelled from the spec (§3): one cache entry. `data` keeps the last good
value even in the error state, for stale-while-revalidate consumers. -/
structure Entry (α ε : Type) where
  status : EntryStatus
  data : Option α
  err : Option ε
  fetchedAt : Nat
  staleAt : Nat
deriving DecidableEq

/-- Modelled from the spec (§4.2): the cache store, a mapping from keys to
entries. -/
def Store (α ε : Type) := Key → Option (Entry α ε)

/-- Store update at one key. -/
def putEntry {α ε : Type} (s : Store α ε) (k : Key) (e : Entry α ε) :
    Store α ε :=
  fun q => if q = k then some e else s q

/-- Result of the fetch coordinator's `request`: the updated store, whether
a new outbound fetch was started, and the data returned synchronously when
the entry was fresh. -/
structure ReqResult (α ε : Type) where
  store : Store α ε
  started : Bool
  value : Option α

/-- Modelled from the spec (§4.3 request): attach to the in-flight fetch
when the entry is pending; return cached data without fetching when the
entry is success and not yet stale; otherwise mark the entry pending and
start exactly one outbound fetch. -/
def request {α ε : Type} (s : Store α ε) (k : Key) (now staleTime : Nat) :
    ReqResult α ε :=
  match s k with
  | some e =>
    if e.status = .pending then ⟨s, false, none⟩
    else if e.status = .success ∧ now < e.staleAt then ⟨s, false, e.data⟩
    else ⟨putEntry s k { e with status := .pending }, true, none⟩
  | none => ⟨putEntry s k ⟨.pending, none, none, now, now + staleTime⟩, true, none⟩

/-- Modelled from the spec (§4.3 completion): on success store the data and
reset the timestamps; on failure store the error and leave the previous data
untouched; a completion for a key whose entry has been removed is dropped
silently. -/
def complete {α ε : Type} (s : Store α ε) (k : Key) (o : Outcome ε α)
    (now staleTime : Nat) : Store α ε :=
  match s k with
  | none => s
  | some e =>
    match o with
    | .ok a => putEntry s k ⟨.success, some a, none, now, now + staleTime⟩
    | .fail f => putEntry s k { e with status := .error, err := some f }

/-- The field names of the `PledgeQueryParams` interface, in declaration
order. -/
def pledgeParamFields : List String :=
  ["contactId", "categoryId", "page", "limit", "search", "status",
   "startDate", "endDate"]

/-- Modelled from the spec (§9): the canonical serialization of a parameter
bag — its declared fields read off in one fixed order, so structurally equal
bags serialize identically regardless of insertion order. -/
def canonicalBag (b : ParamBag) : ParamBag :=
  pledgeParamFields.filterMap (fun n => (b.lookup n).map (fun v => (n, v)))

/-- Modelled from the spec (§4.1, §9): the identity under which the lookup
structure compares keys — value equality with parameter bags canonicalized. -/
def keyIdent (k : Key) : Key :=
  k.map (fun e => match e with | .bag b => .bag (canonicalBag b) | e => e)

/-- If an extended filter matches a cached key, so does its initial part. -/
theorem keyMatches_append_left (f g k : Key)
    (h : keyMatches (f ++ g) k = true) : keyMatches f k = true := by
  induction f generalizing k with
  | nil => rfl
  | cons e fs ih =>
    cases k with
    | nil => simp [keyMatches] at h
    | cons q qs =>
      simp only [List.cons_append, keyMatches, Bool.and_eq_true] at h ⊢
      exact ⟨h.1, ih qs h.2⟩

/-- C1 (amended): a successful create-payment marks stale exactly the cached
entries whose key extends `[payments]` or `[pledges]` — the two family-root
filters the hook issues; its `byPledge` and `detail` filters are subsumed by
those roots, and the mutation input carries no contactId at all. -/
theorem createPayment_invalidates_exactly_roots (v : CreatePaymentData) (k : Key) :
    invalidatedBy (createPaymentInvalidations v) k = true ↔
      (keyMatches paymentKeys.all k = true ∨ keyMatches pledgeKeys.all k = true) := by
  simp only [invalidatedBy, createPaymentInvalidations, List.any_eq_true]
  constructor
  · rintro ⟨f, hf, hm⟩
    simp only [List.mem_cons, List.not_mem_nil, or_false] at hf
    rcases hf with rfl | rfl | rfl | rfl
    · exact Or.inl hm
    · exact Or.inl (keyMatches_append_left paymentKeys.all
        [.str "list", .str "pledge", .num v.pledgeId] k hm)
    · exact Or.inr hm
    · exact Or.inr (keyMatches_append_left pledgeKeys.all
        [.str "detail", .num v.pledgeId] k hm)
  · rintro (hm | hm)
    · exact ⟨paymentKeys.all, by simp, hm⟩
    · exact ⟨pledgeKeys.all, by simp, hm⟩

/-- C1 (counterexample): for the create-payment input with pledgeId 7 (and
contactId 3 read into the four prefixes the claim allows), the cached key
`pledgeKeys.detail 9` is marked stale by the code's invalidation calls even
though it lies outside every prefix the claim permits. -/
theorem createPayment_cex :
    invalidatedBy
        (createPaymentInvalidations
          ⟨7, 100, "USD", none, "2024-01-01", none, none, none,
           none, none, none, none, none, none⟩)
        (pledgeKeys.detail 9) = true
  ∧ invalidatedBy
        [paymentKeys.byPledge 7, paymentKeys.byContact 3,
         pledgeKeys.lists, pledgeKeys.detail 7]
        (pledgeKeys.detail 9) = false := by
  decide

/-- C7: the key builders form a prefix hierarchy — each family root is a
prefix of its list key, which is a prefix of each parameterized list key,
and the root is a prefix of each detail key. -/
theorem keys_form_hierarchy (params : ParamBag) (n p c : Int) :
    keyMatches pledgeKeys.all pledgeKeys.lists = true
  ∧ keyMatches pledgeKeys.lists (pledgeKeys.list params) = true
  ∧ keyMatches pledgeKeys.all (pledgeKeys.list params) = true
  ∧ keyMatches pledgeKeys.all (pledgeKeys.detail n) = true
  ∧ keyMatches pledgeKeys.details (pledgeKeys.detail n) = true
  ∧ keyMatches paymentKeys.all paymentKeys.lists = true
  ∧ keyMatches paymentKeys.lists (paymentKeys.byPledge p) = true
  ∧ keyMatches paymentKeys.all (paymentKeys.byPledge p) = true
  ∧ keyMatches paymentKeys.lists (paymentKeys.byContact c) = true
  ∧ keyMatches paymentKeys.all (paymentKeys.byContact c) = true := by
  exact ⟨rfl, rfl, rfl, rfl, rfl, rfl, rfl, rfl, rfl, rfl⟩

/-- C2 (amended): a successful create-pledge (and create-pledge-and-pay)
mutation issues exactly the filters `[pledges]` — the family root, which
subsumes `[pledges, list]` but is not equal to it — and
`[pledges, list, {contactId}]`, plus `[pledges, list, {categoryId}]` exactly
when categoryId is present and nonzero (the hook tests it with JavaScript
truthiness). -/
theorem createPledge_invalidation_rule (v : CreatePledgeData) (b : Bool) :
    pledgeKeys.all ∈ createPledgeInvalidations v
  ∧ pledgeKeys.list [("contactId", PValue.num v.contactId)] ∈
      createPledgeInvalidations v
  ∧ (∀ g : Int,
      pledgeKeys.list [("categoryId", PValue.num g)] ∈ createPledgeInvalidations v
        ↔ (v.categoryId = some g ∧ g ≠ 0))
  ∧ pledgeKeys.lists ∉ createPledgeInvalidations v
  ∧ (∀ f ∈ createPledgeInvalidations v,
        f = pledgeKeys.all
      ∨ f = pledgeKeys.list [("contactId", PValue.num v.contactId)]
      ∨ ∃ g : Int, v.categoryId = some g ∧ g ≠ 0
          ∧ f = pledgeKeys.list [("categoryId", PValue.num g)])
  ∧ createPledgeAndPayInvalidations ⟨v, b⟩ = createPledgeInvalidations v := by
  have hshape : createPledgeInvalidations v =
      pledgeKeys.all :: pledgeKeys.list [("contactId", PValue.num v.contactId)] ::
        (match v.categoryId with
          | some g =>
            if g == 0 then [] else [pledgeKeys.list [("categoryId", PValue.num g)]]
          | none => []) := rfl
  refine ⟨?_, ?_, ?_, ?_, ?_, rfl⟩
  · rw [hshape]; exact List.mem_cons_self _ _
  · rw [hshape]; exact List.mem_cons_of_mem _ (List.mem_cons_self _ _)
  · intro g
    rw [hshape]
    constructor
    · intro hmem
      rcases List.mem_cons.mp hmem with h1 | hmem2
      · exact absurd h1 (by simp [pledgeKeys.list, pledgeKeys.lists, pledgeKeys.all])
      rcases List.mem_cons.mp hmem2 with h2 | hmem3
      · exact absurd h2 (by simp [pledgeKeys.list, pledgeKeys.lists, pledgeKeys.all])
      · cases hc : v.categoryId with
        | none =>
          simp only [hc] at hmem3
          exact absurd hmem3 (List.not_mem_nil _)
        | some g0 =>
          simp only [hc] at hmem3
          by_cases hg0 : g0 = 0
          · simp [hg0] at hmem3
          · simp only [beq_iff_eq, hg0, if_false, List.mem_singleton] at hmem3
            have hg : g = g0 := by
              simpa [pledgeKeys.list, pledgeKeys.lists, pledgeKeys.all] using hmem3
            subst hg
            exact ⟨rfl, hg0⟩
    · rintro ⟨hc, hg⟩
      simp only [hc, beq_iff_eq, hg, if_false]
      simp
  · rw [hshape]
    intro hmem
    rcases List.mem_cons.mp hmem with h1 | hmem2
    · exact absurd h1 (by simp [pledgeKeys.lists, pledgeKeys.all])
    rcases List.mem_cons.mp hmem2 with h2 | hmem3
    · exact absurd h2 (by simp [pledgeKeys.list, pledgeKeys.lists, pledgeKeys.all])
    · cases hc : v.categoryId with
      | none =>
        simp only [hc] at hmem3
        exact absurd hmem3 (List.not_mem_nil _)
      | some g0 =>
        simp only [hc] at hmem3
        by_cases hg0 : g0 = 0
        · simp [hg0] at hmem3
        · simp only [beq_iff_eq, hg0, if_false, List.mem_singleton] at hmem3
          exact absurd hmem3
            (by simp [pledgeKeys.list, pledgeKeys.lists, pledgeKeys.all])
  · intro f hf
    rw [hshape] at hf
    rcases List.mem_cons.mp hf with h1 | hf2
    · exact Or.inl h1
    rcases List.mem_cons.mp hf2 with h2 | hf3
    · exact Or.inr (Or.inl h2)
    · cases hc : v.categoryId with
      | none =>
        simp only [hc] at hf3
        exact absurd hf3 (List.not_mem_nil _)
      | some g0 =>
        simp only [hc] at hf3
        by_cases hg0 : g0 = 0
        · simp [hg0] at hf3
        · simp only [beq_iff_eq, hg0, if_false, List.mem_singleton] at hf3
          exact Or.inr (Or.inr ⟨g0, rfl, hg0, hf3⟩)

/-- C2 (counterexample): with contactId 3 and categoryId present but equal
to 0, the hook issues neither the filter `[pledges, list]` (it issues the
broader family root `[pledges]` instead) nor any categoryId filter
(JavaScript truthiness treats 0 like an absent categoryId). -/
theorem createPledge_cex :
    pledgeKeys.lists ∉ createPledgeInvalidations
        ⟨3, some 0, "2024-01-01", "d", 100, "USD", 100, none⟩
  ∧ pledgeKeys.list [("categoryId", PValue.num 0)] ∉ createPledgeInvalidations
        ⟨3, some 0, "2024-01-01", "d", 100, "USD", 100, none⟩
  ∧ pledgeKeys.all ∈ createPledgeInvalidations
        ⟨3, some 0, "2024-01-01", "d", 100, "USD", 100, none⟩ := by
  decide

/-- C8: a failed create-payment, create-pledge, or create-pledge-and-pay
mutation issues no invalidation filter — so no cache entry is marked stale
and no refetch is triggered — and the failure value itself is what the
mutation's caller receives. -/
theorem mutation_failure_no_invalidation {ε : Type} (vp : CreatePaymentData)
    (vg : CreatePledgeData) (vb : CreatePledgeAndPayData) (e : ε) (k : Key) :
    mutationEffect (createPaymentInvalidations vp)
        (Outcome.fail e : Outcome ε CreatePaymentResponse) = ([], Outcome.fail e)
  ∧ mutationEffect (createPledgeInvalidations vg)
        (Outcome.fail e : Outcome ε CreatePledgeResponse) = ([], Outcome.fail e)
  ∧ mutationEffect (createPledgeAndPayInvalidations vb)
        (Outcome.fail e : Outcome ε CreatePledgeAndPayResult) = ([], Outcome.fail e)
  ∧ createPledgeAndPayFn (fun _ => (Outcome.fail e : Outcome ε CreatePledgeResponse)) vb
      = Outcome.fail e
  ∧ invalidatedBy [] k = false :=
  ⟨rfl, rfl, rfl, rfl, rfl⟩

/-- In a bag with pairwise distinct field names, a name determines its
value. -/
theorem bag_field_unique {l : ParamBag} (h : (l.map Prod.fst).Nodup)
    {n : String} {v w : PValue} (hv : (n, v) ∈ l) (hw : (n, w) ∈ l) : v = w := by
  induction l with
  | nil => cases hv
  | cons p t ih =>
    simp only [List.map_cons, List.nodup_cons] at h
    rcases List.mem_cons.mp hv with h1 | hv'
    · rcases List.mem_cons.mp hw with h2 | hw'
      · have h3 : (n, w) = (n, v) := h2.trans h1.symm
        have h4 : w = v := by simpa using h3
        exact h4.symm
      · exfalso
        have hmem : n ∈ t.map Prod.fst := List.mem_map.mpr ⟨(n, w), hw', rfl⟩
        rw [← h1] at h
        exact h.1 hmem
    · rcases List.mem_cons.mp hw with h2 | hw'
      · exfalso
        have hmem : n ∈ t.map Prod.fst := List.mem_map.mpr ⟨(n, v), hv', rfl⟩
        rw [← h2] at h
        exact h.1 hmem
      · exact ih h.2 hv' hw'

/-- C9: `fetchPledges` builds its query string from exactly the fields whose
value is neither undefined, null, nor the empty string, each appended as
`key = value.toString()`; fields holding one of those three values never
appear under their name. -/
theorem fetchPledges_query_fields (params : ParamBag)
    (h : (params.map Prod.fst).Nodup) :
    (∀ p ∈ params, keepsParam p.2 = true →
        (p.1, pvalueToString p.2) ∈ fetchPledgesQuery params)
  ∧ (∀ p ∈ params, keepsParam p.2 = false →
        ∀ s, (p.1, s) ∉ fetchPledgesQuery params)
  ∧ (∀ q ∈ fetchPledgesQuery params,
        ∃ v, (q.1, v) ∈ params ∧ keepsParam v = true ∧ q.2 = pvalueToString v) := by
  refine ⟨?_, ?_, ?_⟩
  · intro p hp hk
    exact List.mem_map.mpr ⟨p, List.mem_filter.mpr ⟨hp, hk⟩, rfl⟩
  · intro p hp hk s hmem
    obtain ⟨kv, hkv, heq⟩ := List.mem_map.mp hmem
    obtain ⟨hkvmem, hkeep⟩ := List.mem_filter.mp hkv
    injection heq with h1 h2s
    have hkvmem' : (p.1, kv.2) ∈ params := by
      rw [← h1]
      exact hkvmem
    have h2 : kv.2 = p.2 := bag_field_unique h hkvmem' hp
    rw [h2, hk] at hkeep
    simp at hkeep
  · intro q hq
    obtain ⟨kv, hkv, heq⟩ := List.mem_map.mp hq
    obtain ⟨hmem, hkeep⟩ := List.mem_filter.mp hkv
    obtain ⟨q1, q2⟩ := q
    injection heq with h1 h2s
    refine ⟨kv.2, ?_, hkeep, h2s.symm⟩
    show (q1, kv.2) ∈ params
    rw [← h1]
    exact hmem

/-- A concrete parameter bag exercising each filtered value shape. -/
def c9params : ParamBag :=
  [("contactId", PValue.num 0), ("search", PValue.str ""),
   ("endDate", PValue.null)]

/-- Witness for the query-string theorem at a concrete parameter bag. -/
theorem fetchPledges_query_fields_witness :
    (c9params.map Prod.fst).Nodup
  ∧ ((∀ p ∈ c9params, keepsParam p.2 = true →
        (p.1, pvalueToString p.2) ∈ fetchPledgesQuery c9params)
   ∧ (∀ p ∈ c9params, keepsParam p.2 = false →
        ∀ s, (p.1, s) ∉ fetchPledgesQuery c9params)
   ∧ (∀ q ∈ fetchPledgesQuery c9params,
        ∃ v, (q.1, v) ∈ c9params ∧ keepsParam v = true ∧ q.2 = pvalueToString v)) :=
  ⟨by decide, fetchPledges_query_fields c9params (by decide)⟩

/-- C10: the create-pledge-and-pay mutation function sends `createPledge`
every input field except `shouldRedirectToPay`, and resolves to the
`createPledge` response extended with the input's flag, unchanged; a
`createPledge` failure is passed through. -/
theorem createPledgeAndPay_behavior {ε : Type}
    (api : CreatePledgeData → Outcome ε CreatePledgeResponse)
    (d : CreatePledgeAndPayData) :
    d.toCreatePledgeData =
      ⟨d.contactId, d.categoryId, d.pledgeDate, d.description,
       d.originalAmount, d.currency, d.originalAmountUsd, d.notes⟩
  ∧ (∀ r : CreatePledgeResponse, api d.toCreatePledgeData = Outcome.ok r →
      createPledgeAndPayFn api d =
        Outcome.ok ⟨r.message, r.pledge, d.shouldRedirectToPay⟩)
  ∧ (∀ e : ε, api d.toCreatePledgeData = Outcome.fail e →
      createPledgeAndPayFn api d = Outcome.fail e) := by
  refine ⟨rfl, ?_, ?_⟩
  · intro r hr
    simp [createPledgeAndPayFn, hr]
  · intro e he
    simp [createPledgeAndPayFn, he]

/-- A concrete pledge record for exercising the mutation function. -/
def c10pledge : Pledge :=
  ⟨1, 3, none, "2024-01-01", "d", "100", "USD", none, "0", none, "100",
   none, true, none, "t", "t", 0, none, none⟩

/-- A constant transport that accepts any create-pledge body. -/
def c10api : CreatePledgeData → Outcome String CreatePledgeResponse :=
  fun _ => Outcome.ok ⟨"created", c10pledge⟩

/-- A concrete create-pledge-and-pay input. -/
def c10input : CreatePledgeAndPayData :=
  ⟨⟨3, none, "2024-01-01", "d", 100, "USD", 100, none⟩, true⟩

/-- Witness for the mutation-function theorem at a concrete input. -/
theorem createPledgeAndPay_behavior_witness :
    createPledgeAndPayFn c10api c10input =
      Outcome.ok ⟨"created", c10pledge, true⟩ :=
  (createPledgeAndPay_behavior c10api c10input).2.1 ⟨"created", c10pledge⟩ rfl

/-- Witness instance of the create-payment invalidation characterization. -/
theorem createPayment_invalidates_exactly_roots_witness :
    invalidatedBy
        (createPaymentInvalidations
          ⟨7, 100, "USD", none, "2024-01-01", none, none, none,
           none, none, none, none, none, none⟩)
        (paymentKeys.byContact 3) = true ↔
      (keyMatches paymentKeys.all (paymentKeys.byContact 3) = true ∨
       keyMatches pledgeKeys.all (paymentKeys.byContact 3) = true) :=
  createPayment_invalidates_exactly_roots _ _

/-- A concrete create-pledge input with a nonzero categoryId. -/
def c2input : CreatePledgeData := ⟨5, some 2, "2024-01-01", "d", 100, "USD", 100, none⟩

/-- Witness instance of the create-pledge invalidation rule. -/
theorem createPledge_invalidation_rule_witness :
    pledgeKeys.all ∈ createPledgeInvalidations c2input
  ∧ pledgeKeys.list [("contactId", PValue.num c2input.contactId)] ∈
      createPledgeInvalidations c2input
  ∧ (∀ g : Int,
      pledgeKeys.list [("categoryId", PValue.num g)] ∈ createPledgeInvalidations c2input
        ↔ (c2input.categoryId = some g ∧ g ≠ 0))
  ∧ pledgeKeys.lists ∉ createPledgeInvalidations c2input
  ∧ (∀ f ∈ createPledgeInvalidations c2input,
        f = pledgeKeys.all
      ∨ f = pledgeKeys.list [("contactId", PValue.num c2input.contactId)]
      ∨ ∃ g : Int, c2input.categoryId = some g ∧ g ≠ 0
          ∧ f = pledgeKeys.list [("categoryId", PValue.num g)])
  ∧ createPledgeAndPayInvalidations ⟨c2input, true⟩ = createPledgeInvalidations c2input :=
  createPledge_invalidation_rule c2input true

/-- C3: a fetch failure for a key is recorded on that key's entry as a
tagged error state — status error with the failure stored — while the
entry's previously cached data is left untouched for stale-while-revalidate
reads, and no other key's entry changes, so the failure reaches exactly that
key's subscribers as data and is never thrown into unrelated ones. -/
theorem fetch_failure_tagged {α ε : Type} (s : Store α ε) (k : Key)
    (ent : Entry α ε) (f : ε) (now T : Nat) (h : s k = some ent) :
    complete s k (Outcome.fail f) now T k =
        some { ent with status := EntryStatus.error, err := some f }
  ∧ (∀ k', k' ≠ k → complete s k (Outcome.fail f) now T k' = s k') := by
  constructor
  · unfold complete
    rw [h]
    simp [putEntry]
  · intro k' hk
    unfold complete
    rw [h]
    simp [putEntry, hk]

/-- A concrete store holding one successful entry. -/
def c3store : Store Nat String :=
  putEntry (fun _ => none) (pledgeKeys.detail 7)
    ⟨EntryStatus.success, some 5, none, 0, pledgesStaleTime⟩

/-- Witness instance of the fetch-failure theorem at a concrete store. -/
theorem fetch_failure_tagged_witness :
    c3store (pledgeKeys.detail 7) =
        some ⟨EntryStatus.success, some 5, none, 0, pledgesStaleTime⟩
  ∧ (complete c3store (pledgeKeys.detail 7) (Outcome.fail "boom") 9
        pledgesStaleTime (pledgeKeys.detail 7) =
          some ⟨EntryStatus.error, some 5, some "boom", 0, pledgesStaleTime⟩
   ∧ ∀ k', k' ≠ pledgeKeys.detail 7 →
        complete c3store (pledgeKeys.detail 7) (Outcome.fail "boom") 9
          pledgesStaleTime k' = c3store k') :=
  ⟨by decide,
   fetch_failure_tagged c3store (pledgeKeys.detail 7)
     ⟨EntryStatus.success, some 5, none, 0, pledgesStaleTime⟩ "boom" 9
     pledgesStaleTime (by decide)⟩

/-- When a request starts an outbound fetch, the entry it leaves behind is
pending. -/
theorem request_started_pending {α ε : Type} (s : Store α ε) (k : Key)
    (now T : Nat) (h : (request s k now T).started = true) :
    ∃ e, (request s k now T).store k = some e
      ∧ e.status = EntryStatus.pending := by
  unfold request at h ⊢
  cases hs : s k with
  | none =>
    simp only [hs]
    refine ⟨⟨EntryStatus.pending, none, none, now, now + T⟩, ?_, rfl⟩
    simp [putEntry]
  | some e =>
    simp only [hs] at h ⊢
    by_cases hp : e.status = EntryStatus.pending
    · simp [hp] at h
    · by_cases hf : e.status = EntryStatus.success ∧ now < e.staleAt
      · simp [hp, hf] at h
      · simp only [hp, hf, if_false]
        refine ⟨{ e with status := EntryStatus.pending }, ?_, rfl⟩
        simp [putEntry]

/-- A request against a pending entry attaches to the in-flight fetch and
changes nothing. -/
theorem request_pending_attach {α ε : Type} (s : Store α ε) (k : Key)
    (now T : Nat) (e : Entry α ε) (he : s k = some e)
    (hp : e.status = EntryStatus.pending) :
    request s k now T = ⟨s, false, none⟩ := by
  unfold request
  rw [he]
  simp [hp]

/-- C4: request de-duplication — a second request for the same key, issued
while that key's fetch is still in flight, starts no second fetch and leaves
the store unchanged, so both callers go on to observe the one entry produced
by the single completion. -/
theorem request_dedup {α ε : Type} (s : Store α ε) (k : Key)
    (t1 t2 T : Nat) (h : (request s k t1 T).started = true) :
    (request (request s k t1 T).store k t2 T).started = false
  ∧ (request (request s k t1 T).store k t2 T).store = (request s k t1 T).store
  ∧ ∀ (o : Outcome ε α) (tc : Nat),
      complete ((request (request s k t1 T).store k t2 T).store) k o tc T
        = complete ((request s k t1 T).store) k o tc T := by
  obtain ⟨e, he, hp⟩ := request_started_pending s k t1 T h
  have hreq : request (request s k t1 T).store k t2 T
      = ⟨(request s k t1 T).store, false, none⟩ :=
    request_pending_attach _ k t2 T e he hp
  refine ⟨by rw [hreq], by rw [hreq], fun o tc => by rw [hreq]⟩

/-- The empty store used by the de-duplication witness. -/
def c4store : Store Nat String := fun _ => none

/-- Witness instance of the de-duplication theorem at a concrete store. -/
theorem request_dedup_witness :
    (request c4store (usePledgesQueryKey []) 0 pledgesStaleTime).started = true
  ∧ ((request (request c4store (usePledgesQueryKey []) 0 pledgesStaleTime).store
        (usePledgesQueryKey []) 1 pledgesStaleTime).started = false
   ∧ (request (request c4store (usePledgesQueryKey []) 0 pledgesStaleTime).store
        (usePledgesQueryKey []) 1 pledgesStaleTime).store
          = (request c4store (usePledgesQueryKey []) 0 pledgesStaleTime).store
   ∧ ∀ (o : Outcome String Nat) (tc : Nat),
        complete ((request (request c4store (usePledgesQueryKey []) 0
            pledgesStaleTime).store (usePledgesQueryKey []) 1
            pledgesStaleTime).store) (usePledgesQueryKey []) o tc pledgesStaleTime
          = complete ((request c4store (usePledgesQueryKey []) 0
              pledgesStaleTime).store) (usePledgesQueryKey []) o tc
              pledgesStaleTime) :=
  ⟨rfl, request_dedup c4store (usePledgesQueryKey []) 0 1 pledgesStaleTime rfl⟩

/-- C5: with stale time T, a request for a key whose entry is success and
fetched less than T ago returns the cached data without starting a fetch or
changing the store; once the entry's age exceeds T, a request starts the
fetcher again. -/
theorem staleness_policy {α ε : Type} (s : Store α ε) (k : Key)
    (ent : Entry α ε) (now T : Nat) (h : s k = some ent)
    (hs : ent.status = EntryStatus.success)
    (hT : ent.staleAt = ent.fetchedAt + T) :
    (now < ent.fetchedAt + T →
        (request s k now T).started = false
      ∧ (request s k now T).value = ent.data
      ∧ (request s k now T).store = s)
  ∧ (ent.fetchedAt + T < now → (request s k now T).started = true) := by
  have hnp : ent.status ≠ EntryStatus.pending := by
    rw [hs]
    intro hx
    cases hx
  constructor
  · intro hfresh
    have hlt : now < ent.staleAt := by
      rw [hT]
      exact hfresh
    refine ⟨?_, ?_, ?_⟩ <;> simp [request, h, hnp, hs, hlt]
  · intro hstale
    have hge : ¬ now < ent.staleAt := by
      rw [hT]
      omega
    simp [request, h, hnp, hge]

/-- The concrete query key used by the staleness witness. -/
def c5key : Key := usePledgesQueryKey [("contactId", PValue.num 3)]

/-- The concrete fresh entry used by the staleness witness. -/
def c5entry : Entry Nat String :=
  ⟨EntryStatus.success, some 42, none, 0, pledgesStaleTime⟩

/-- The concrete store used by the staleness witness. -/
def c5store : Store Nat String := putEntry (fun _ => none) c5key c5entry

/-- Witness instance of the staleness theorem, with the five-minute stale
time `usePledgesQuery` configures. -/
theorem staleness_policy_witness :
    c5store c5key = some c5entry
  ∧ ((100 < c5entry.fetchedAt + pledgesStaleTime →
        (request c5store c5key 100 pledgesStaleTime).started = false
      ∧ (request c5store c5key 100 pledgesStaleTime).value = c5entry.data
      ∧ (request c5store c5key 100 pledgesStaleTime).store = c5store)
   ∧ (c5entry.fetchedAt + pledgesStaleTime < 100 →
        (request c5store c5key 100 pledgesStaleTime).started = true)) :=
  ⟨by decide,
   staleness_policy c5store c5key c5entry 100 pledgesStaleTime (by decide)
     (by decide) (by decide)⟩

/-- List lookup is insertion-order independent on bags with distinct field
names. -/
theorem perm_lookup_eq {p q : ParamBag} (hperm : p.Perm q) :
    (p.map Prod.fst).Nodup → ∀ n : String, p.lookup n = q.lookup n := by
  induction hperm with
  | nil =>
    intro _ n
    rfl
  | cons x hpq ih =>
    intro hnd n
    obtain ⟨xn, xv⟩ := x
    simp only [List.map_cons, List.nodup_cons] at hnd
    simp only [List.lookup]
    cases hx : n == xn with
    | true => rfl
    | false => exact ih hnd.2 n
  | swap x y t =>
    intro hnd n
    obtain ⟨xn, xv⟩ := x
    obtain ⟨yn, yv⟩ := y
    simp only [List.map_cons, List.nodup_cons, List.mem_cons] at hnd
    have hne : yn ≠ xn := fun hxy => hnd.1 (Or.inl hxy)
    simp only [List.lookup]
    cases hx : n == xn with
    | true =>
      have hn : n = xn := by simpa using hx
      have hy : (n == yn) = false := by
        simp [hn]
        exact fun hc => hne hc.symm
      rw [hy]
    | false => rfl
  | trans hpq hqr ih1 ih2 =>
    intro hnd n
    have hndq := ((hpq.map Prod.fst).nodup_iff).mp hnd
    exact (ih1 hnd n).trans (ih2 hndq n)

/-- Canonical serialization does not depend on a bag's insertion order. -/
theorem canonicalBag_perm {p q : ParamBag} (hperm : p.Perm q)
    (hnd : (p.map Prod.fst).Nodup) : canonicalBag p = canonicalBag q := by
  unfold canonicalBag
  congr 1
  funext n
  rw [perm_lookup_eq hperm hnd n]

/-- C6: the key builders are total, deterministic functions, and two calls
with the same family and value-equal parameter bags — whatever the bags'
insertion order — yield keys that are equal under the canonical value
identity the lookup structure compares by (never reference equality). -/
theorem buildKey_order_independent {p q : ParamBag} (hperm : p.Perm q)
    (hnd : (p.map Prod.fst).Nodup) :
    keyIdent (pledgeKeys.list p) = keyIdent (pledgeKeys.list q)
  ∧ keyIdent (usePledgesQueryKey p) = keyIdent (usePledgesQueryKey q) := by
  have hc : canonicalBag p = canonicalBag q := canonicalBag_perm hperm hnd
  constructor <;>
    simp [keyIdent, pledgeKeys.list, pledgeKeys.lists, pledgeKeys.all,
      usePledgesQueryKey, hc]

/-- A two-field bag in one insertion order. -/
def c6p : ParamBag := [("page", PValue.num 1), ("contactId", PValue.num 3)]

/-- The same bag with the opposite insertion order. -/
def c6q : ParamBag := [("contactId", PValue.num 3), ("page", PValue.num 1)]

/-- Witness instance of key-identity order independence. -/
theorem buildKey_order_independent_witness :
    c6p.Perm c6q
  ∧ (c6p.map Prod.fst).Nodup
  ∧ (keyIdent (pledgeKeys.list c6p) = keyIdent (pledgeKeys.list c6q)
   ∧ keyIdent (usePledgesQueryKey c6p) = keyIdent (usePledgesQueryKey c6q)) :=
  ⟨by decide, by decide, buildKey_order_independent (by decide) (by decide)⟩
